import Mathlib

/-!
Verification of the pool-connection strategy core and the Verthash dataset
manager: a shallow embedding of FailoverStrategy.cpp, DonateStrategy.cpp and
VerthashWrapper.cpp, with theorems settling the behavioural claims about them.

Stateful C++ methods become Lean functions from a state record to a pair of
the new state and the list of externally visible effects (listener callbacks
and client calls) emitted during the call, in source order.  LOG_* calls are
not modelled: they are neither listener callbacks nor client calls.
-/

namespace Spec2Proof

/-! ## FailoverStrategy (src/src/base/net/stratum/strategies/FailoverStrategy.cpp)

State record mirroring the member variables used by the strategy.  Client ids
are the indices 0 .. size-1 assigned by FailoverStrategy::add, so they are
modelled as Nat.  m_retries and failure counts are C ints, modelled as Int
(failures = -1 marks an explicit local disconnect).  m_index, m_pendingIndex
and m_minAcceptableIndex are size_t; in every state considered here
index < size, where Nat subtraction agrees with size_t subtraction in the
guard (size - index) > 1. -/

structure FoState where
  size : Nat
  retries : Int
  index : Nat
  active : Int
  pendingConnect : Bool
  pendingIndex : Nat
  minAcceptableIndex : Nat
deriving DecidableEq

/-- External effects of one FailoverStrategy call: a listener onPause or
onActive, or a client disconnect, connect or tick. -/
inductive FoEffect where
  | pause : FoEffect
  | activeEv : Nat → FoEffect
  | disconnect : Nat → FoEffect
  | connect : Nat → FoEffect
  | clientTick : Nat → Nat → FoEffect
deriving DecidableEq

namespace FailoverStrategy

/-- Modelled from the spec: FailoverStrategy.h is not under src/.  Per the
spec, m_active holds the id of the authorized client, or -1 if none, and
isActive() reports whether some client is active. -/
def isActive (s : FoState) : Bool :=
  decide (0 ≤ s.active)

/-- Modelled from the spec: FailoverStrategy.h is not under src/.  Initial
member values: the cascade begins at m_index = 0, m_active = -1, no pending
connect. -/
def fresh (size : Nat) (retries : Int) : FoState :=
  ⟨size, retries, 0, -1, false, 0, 0⟩

/-- First step of onClose after the failures == -1 check: if the closing
client was active, m_active is cleared (state part). -/
def clearActive (s : FoState) (cid : Nat) : FoState :=
  if s.active = (cid : Int) then { s with active := -1 } else s

/-- First step of onClose after the failures == -1 check: if the closing
client was active, onPause is emitted (effect part). -/
def pauseEffects (s : FoState) (cid : Nat) : List FoEffect :=
  if s.active = (cid : Int) then [FoEffect.pause] else []

/-- Remainder of onClose, operating on the state after the active-clear step,
with e1 the effects emitted so far.  Mirrors FailoverStrategy.cpp lines
150-194: the zero-retry branch (ignore closes below m_minAcceptableIndex with
a re-disconnect; on the current index disconnect pools 0..m_index and defer
the next connect), then the nonzero-retry branch (retry in place on pool 0
below the retry budget, otherwise advance and connect synchronously). -/
def onCloseRest (s1 : FoState) (cid : Nat) (failures : Int) (e1 : List FoEffect) :
    FoState × List FoEffect :=
  if s1.retries = 0 then
    if cid < s1.minAcceptableIndex then
      (s1, e1 ++ [FoEffect.disconnect cid])
    else if s1.index = cid then
      if s1.size - s1.index > 1 then
        ({ s1 with pendingIndex := s1.index + 1, minAcceptableIndex := s1.index + 1,
                   pendingConnect := true },
         e1 ++ (List.range (s1.index + 1)).map FoEffect.disconnect)
      else
        ({ s1 with pendingIndex := 0, minAcceptableIndex := 0, pendingConnect := true },
         e1 ++ (List.range (s1.index + 1)).map FoEffect.disconnect)
    else (s1, e1)
  else
    if s1.index = 0 ∧ failures < s1.retries then (s1, e1)
    else if s1.index = cid ∧ s1.size - s1.index > 1 then
      ({ s1 with index := s1.index + 1 }, e1 ++ [FoEffect.connect (s1.index + 1)])
    else (s1, e1)

/-- FailoverStrategy::onClose (lines 135-195).  failures == -1 is ignored;
otherwise the active-clear step runs, then the retry-mode dependent rest. -/
def onClose (s : FoState) (cid : Nat) (failures : Int) : FoState × List FoEffect :=
  if failures = -1 then (s, [])
  else onCloseRest (clearActive s cid) cid failures (pauseEffects s cid)

/-- The local variable named active in onLoginSuccess after the promotion
check: the closing over of client id when it is pool 0 or no pool is active,
otherwise the previous m_active. -/
def promotedActive (s : FoState) (cid : Nat) : Int :=
  if cid = 0 ∨ isActive s = false then (cid : Int) else s.active

/-- FailoverStrategy::onLoginSuccess (lines 226-262).  In zero-retry mode a
login from below m_minAcceptableIndex is suppressed with a disconnect;
otherwise the pending connect is cancelled, m_minAcceptableIndex is reset,
every pool other than the chosen active one is disconnected, and when the
active id changed, m_index and m_active are updated and onActive emitted. -/
def onLoginSuccess (s : FoState) (cid : Nat) : FoState × List FoEffect :=
  if s.retries = 0 ∧ cid < s.minAcceptableIndex then
    (s, [FoEffect.disconnect cid])
  else
    let s1 : FoState := { s with pendingConnect := false, minAcceptableIndex := 0 }
    let a : Int := promotedActive s1 cid
    let e1 : List FoEffect := (List.range s1.size).filterMap fun (i : Nat) =>
      if a ≠ (i : Int) then some (FoEffect.disconnect i) else none
    if 0 ≤ a ∧ a ≠ s1.active then
      ({ s1 with index := a.toNat, active := a }, e1 ++ [FoEffect.activeEv cid])
    else (s1, e1)

/-- FailoverStrategy::connectNext (lines 198-209): drain a pending deferred
connect, if any and in range. -/
def connectNext (s : FoState) : FoState × List FoEffect :=
  if s.pendingConnect = false ∨ s.size ≤ s.pendingIndex then (s, [])
  else ({ s with pendingConnect := false, index := s.pendingIndex },
        [FoEffect.connect s.pendingIndex])

/-- FailoverStrategy::tick (lines 124-132): tick every client, then drain any
pending connection via connectNext. -/
def tick (s : FoState) (now : Nat) : FoState × List FoEffect :=
  ((connectNext s).1,
   (List.range s.size).map (fun i => FoEffect.clientTick i now) ++ (connectNext s).2)

end FailoverStrategy

/-! ## DonateStrategy (src/src/net/strategies/DonateStrategy.cpp)

Only the parts the claims are about are embedded: the job gate (setJob), the
proxy-failure fallback (onClose), the swallowed nested onPause, and the state
machine transition (setState) together with connect/createProxy which it
invokes.  The controller, network and timer are collaborators; the
configuration and environment facts they supply (proxyDonate mode, whether
the operator strategy is active and CONNECT-capable) are fields of the state
record, and the rand()-derived idle duration is an input of setState. -/

inductive DState where
  | NEW : DState
  | IDLE : DState
  | CONNECT : DState
  | ACTIVE : DState
  | WAIT : DState
deriving DecidableEq

/-- Pools::proxyDonate configuration values consumed by DonateStrategy. -/
inductive PDonate where
  | NONE : PDonate
  | AUTO : PDonate
deriving DecidableEq

structure DonState where
  state : DState
  proxy : Option Unit
  proxyDonate : PDonate
  opActive : Bool
  opHasConnect : Bool
  timestamp : Nat
  now : Nat
  donateTime : Nat
deriving DecidableEq

/-- External effects of one DonateStrategy call: listener callbacks, timer
starts, nested-strategy calls and proxy-client calls. -/
inductive DEffect where
  | listenerPause : DEffect
  | listenerActive : DEffect
  | listenerJob : DEffect
  | timerStart : Nat → DEffect
  | strategyStop : DEffect
  | strategyConnect : DEffect
  | proxyConnect : DEffect
  | proxyDeleteLater : DEffect
deriving DecidableEq

namespace DonateStrategy

/-- Modelled from the spec: DonateStrategy.h is not under src/.  isActive()
reports whether the donation window is running, i.e. state == STATE_ACTIVE. -/
def isActive (s : DonState) : Bool :=
  decide (s.state = DState.ACTIVE)

/-- DonateStrategy::createProxy (lines 275-298): null when proxyDonate is
NONE, or when the operator strategy is inactive or lacks the CONNECT
extension; otherwise a new proxy client over the operator connection (the
proxy pool details are opaque to the claims and elided). -/
def createProxy (s : DonState) : Option Unit :=
  if s.proxyDonate = PDonate.NONE then none
  else if s.opActive = false ∨ s.opHasConnect = false then none
  else some ()

/-- DonateStrategy::connect (lines 141-151): install createProxy() as
m_proxy and connect it, falling back to the nested strategy when null. -/
def connect (s : DonState) : DonState × List DEffect :=
  match createProxy s with
  | some pr => ({ s with proxy := some pr }, [DEffect.proxyConnect])
  | none => ({ s with proxy := none }, [DEffect.strategyConnect])

/-- DonateStrategy::onClose (lines 207-215): after the second consecutive
proxy failure in proxy-AUTO mode, the proxy is torn down (deleteLater and
pointer cleared) and the nested strategy is connected. -/
def onClose (s : DonState) (failures : Int) : DonState × List DEffect :=
  if failures = 2 ∧ s.proxyDonate = PDonate.AUTO then
    ({ s with proxy := none }, [DEffect.proxyDeleteLater, DEffect.strategyConnect])
  else (s, [])

/-- DonateStrategy::onPause(IStrategy*) (lines 202-204): the nested strategy
pause notification is swallowed, with no state change and no effect. -/
def onPause (s : DonState) : DonState × List DEffect :=
  (s, [])

/-- DonateStrategy::setJob (lines 318-323): forward the job to the listener
only while active.  Both onJob from the nested strategy and onJobReceived
from the proxy client route here (modelled from the spec: the routing stubs
live in DonateStrategy.h, which is not under src/).  The state is not
touched, so only the effect list is returned. -/
def setJob (s : DonState) : List DEffect :=
  if isActive s = true then [DEffect.listenerJob] else []

/-- DonateStrategy::setState (lines 359-419).  idleMs stands for the
rand()-derived duration computed by idle(min, max) for the branches that
schedule the idle timer.  On entering IDLE from NEW or from CONNECT only a
timer is started; otherwise the nested strategy is stopped and the proxy, if
any, deleted.  Entering CONNECT runs connect(); entering ACTIVE starts the
donate timer; entering WAIT records the grace deadline and emits onPause. -/
def setState (s : DonState) (st : DState) (idleMs : Nat) : DonState × List DEffect :=
  if s.state = st then (s, [])
  else
    let prev : DState := s.state
    let s1 : DonState := { s with state := st }
    match st with
    | DState.NEW => (s1, [])
    | DState.IDLE =>
      if prev = DState.NEW then (s1, [DEffect.timerStart idleMs])
      else if prev = DState.CONNECT then (s1, [DEffect.timerStart 20000])
      else
        if s1.proxy.isSome = true then
          ({ s1 with proxy := none },
           [DEffect.strategyStop, DEffect.proxyDeleteLater, DEffect.timerStart idleMs])
        else (s1, [DEffect.strategyStop, DEffect.timerStart idleMs])
    | DState.CONNECT => connect s1
    | DState.ACTIVE => (s1, [DEffect.timerStart s1.donateTime])
    | DState.WAIT => ({ s1 with timestamp := s1.now + 3000 }, [DEffect.listenerPause])

end DonateStrategy

/-! ## Verthash dataset manager (src/src/crypto/verthash/VerthashWrapper.cpp)

The verthash_info_t record: data is a nullable pointer to the loaded region
(modelled as an optional byte list), with its size, the consumer bitmask and
the nullable file name. -/

structure VhInfo where
  data : Option (List Nat)
  dataSize : Nat
  bitmask : Nat
  fileName : Option String
deriving DecidableEq

/-- The all-zero info record produced by memset. -/
def VhInfo.empty : VhInfo :=
  ⟨none, 0, 0, none⟩

/-- Result of a successful dataset load: the region, its length and the
loader-supplied bitmask. -/
structure VhLoad where
  data : List Nat
  dataSize : Nat
  bitmask : Nat
deriving DecidableEq

/-- The wrapper singleton state: the info record plus the initialized flag. -/
structure VerthashState where
  info : VhInfo
  inited : Bool
deriving DecidableEq

namespace Verthash

/-- Modelled from the spec: verthash_info_init (VerthashCore.loadFile, in the
Verthash C core) is not under src/.  It loads the file at the given path into
the info record — on success the region, size and bitmask come from the file
and fileName is set to the path — and the wrapper records the outcome:
failure resets the manager to the empty state with the flag down, success
raises the flag.  The loader itself is an explicit parameter lf. -/
def loadInto (lf : String → Option VhLoad) (p : String) : Bool × VerthashState :=
  match lf p with
  | none => (false, ⟨VhInfo.empty, false⟩)
  | some r => (true, ⟨⟨some r.data, r.dataSize, r.bitmask, some p⟩, true⟩)

/-- Verthash::init (VerthashWrapper.cpp lines 41-64): under the mutex, if
already initialized with a non-null region and the same file name, return
true immediately; on a different file free the old region first; in either
remaining case load from the path via the loader and report success. -/
def init (lf : String → Option VhLoad) (s : VerthashState) (p : String) :
    Bool × VerthashState :=
  if s.inited = true ∧ s.info.data.isSome = true then
    if s.info.fileName = some p then (true, s)
    else loadInto lf p
  else loadInto lf p

end Verthash

/-! ## Helper lemmas -/

lemma donate_connect_effects (s : DonState) :
    (DonateStrategy.connect s).2 = [DEffect.proxyConnect] ∨
    (DonateStrategy.connect s).2 = [DEffect.strategyConnect] := by
  unfold DonateStrategy.connect
  cases DonateStrategy.createProxy s <;> simp

lemma verthash_init_true_state (lf : String → Option VhLoad) (s s1 : VerthashState)
    (p : String) (h : Verthash.init lf s p = (true, s1)) :
    s1.inited = true ∧ s1.info.data.isSome = true ∧ s1.info.fileName = some p := by
  unfold Verthash.init Verthash.loadInto at h
  split at h
  · split at h
    · rename_i hguard hname
      injection h with h1 h2
      subst h2
      exact ⟨hguard.1, hguard.2, hname⟩
    · cases hlf : lf p with
      | none => rw [hlf] at h; simp at h
      | some r =>
        rw [hlf] at h
        injection h with h1 h2
        subst h2
        exact ⟨rfl, rfl, rfl⟩
  · cases hlf : lf p with
    | none => rw [hlf] at h; simp at h
    | some r =>
      rw [hlf] at h
      injection h with h1 h2
      subst h2
      exact ⟨rfl, rfl, rfl⟩

@[simp] lemma clearActive_size (s : FoState) (cid : Nat) :
    (FailoverStrategy.clearActive s cid).size = s.size := by
  unfold FailoverStrategy.clearActive; split <;> rfl

@[simp] lemma clearActive_retries (s : FoState) (cid : Nat) :
    (FailoverStrategy.clearActive s cid).retries = s.retries := by
  unfold FailoverStrategy.clearActive; split <;> rfl

@[simp] lemma clearActive_index (s : FoState) (cid : Nat) :
    (FailoverStrategy.clearActive s cid).index = s.index := by
  unfold FailoverStrategy.clearActive; split <;> rfl

@[simp] lemma clearActive_pendingConnect (s : FoState) (cid : Nat) :
    (FailoverStrategy.clearActive s cid).pendingConnect = s.pendingConnect := by
  unfold FailoverStrategy.clearActive; split <;> rfl

@[simp] lemma clearActive_pendingIndex (s : FoState) (cid : Nat) :
    (FailoverStrategy.clearActive s cid).pendingIndex = s.pendingIndex := by
  unfold FailoverStrategy.clearActive; split <;> rfl

@[simp] lemma clearActive_minAcceptableIndex (s : FoState) (cid : Nat) :
    (FailoverStrategy.clearActive s cid).minAcceptableIndex = s.minAcceptableIndex := by
  unfold FailoverStrategy.clearActive; split <;> rfl

lemma mem_pauseEffects (s : FoState) (cid : Nat) (e : FoEffect)
    (h : e ∈ FailoverStrategy.pauseEffects s cid) : e = FoEffect.pause := by
  unfold FailoverStrategy.pauseEffects at h
  split at h <;> simp_all

/-! ## Claims about DonateStrategy and the dataset manager -/

/-- Claim C4: a job event from the donation side reaches the listener through
setJob exactly when the DonateStrategy state is ACTIVE; in the states NEW,
IDLE, CONNECT and WAIT no onJob is emitted to the listener. -/
theorem donate_setJob_only_when_active (s : DonState) :
    DEffect.listenerJob ∈ DonateStrategy.setJob s ↔ s.state = DState.ACTIVE := by
  unfold DonateStrategy.setJob DonateStrategy.isActive
  split <;> rename_i h <;> simp_all

/-- Claim C10: the only transition of DonateStrategy that emits onPause to
the operator-facing listener is setState entering STATE_WAIT from a different
state, and the onPause notification arriving from the nested strategy is
always swallowed with no state change and no effect. -/
theorem donate_pause_only_on_wait :
    (∀ s : DonState, DonateStrategy.onPause s = (s, [])) ∧
    (∀ (s : DonState) (st : DState) (idleMs : Nat),
      DEffect.listenerPause ∈ (DonateStrategy.setState s st idleMs).2 ↔
        (st = DState.WAIT ∧ s.state ≠ DState.WAIT)) := by
  refine ⟨fun s => rfl, fun s st idleMs => ?_⟩
  by_cases h : s.state = st
  · simp only [DonateStrategy.setState, if_pos h]
    simp only [List.not_mem_nil, false_iff]
    rintro ⟨h1, h2⟩
    exact h2 (h1 ▸ h)
  · cases st
    · simp [DonateStrategy.setState, if_neg h]
    · simp only [DonateStrategy.setState, if_neg h]
      split
      · simp
      · split
        · simp
        · split <;> simp
    · simp only [DonateStrategy.setState, if_neg h]
      rcases donate_connect_effects { s with state := DState.CONNECT } with h2 | h2 <;>
        rw [h2] <;> simp
    · simp [DonateStrategy.setState, if_neg h]
    · simp [DonateStrategy.setState, if_neg h, Ne, h]

/-- Claim C8: in proxy-AUTO mode, an onClose with failures = 2 from a live
proxy makes DonateStrategy tear the proxy down (deleteLater, pointer
cleared) and invoke the nested strategy connect exactly once. -/
theorem donate_onClose_proxy_fallback (s : DonState) (failures : Int)
    (_hp : s.proxy.isSome = true) (hf : failures = 2)
    (hm : s.proxyDonate = PDonate.AUTO) :
    (DonateStrategy.onClose s failures).1.proxy = none ∧
    (DonateStrategy.onClose s failures).2 =
      [DEffect.proxyDeleteLater, DEffect.strategyConnect] := by
  subst hf
  unfold DonateStrategy.onClose
  rw [if_pos ⟨rfl, hm⟩]
  exact ⟨rfl, rfl⟩

/-- Witness for C8 at a concrete live-proxy state. -/
theorem donate_onClose_proxy_fallback_witness :
    (DonateStrategy.onClose ⟨DState.CONNECT, some (), PDonate.AUTO, true, true, 0, 0, 300000⟩ 2).1.proxy = none ∧
    (DonateStrategy.onClose ⟨DState.CONNECT, some (), PDonate.AUTO, true, true, 0, 0, 300000⟩ 2).2 =
      [DEffect.proxyDeleteLater, DEffect.strategyConnect] :=
  donate_onClose_proxy_fallback
    ⟨DState.CONNECT, some (), PDonate.AUTO, true, true, 0, 0, 300000⟩ 2 rfl rfl rfl

/-- Claim C5: after an init that returned true for path p, a second init with
the same p returns true with the state unchanged; the result does not depend
on the loader at all, so the file is not re-read. -/
theorem verthash_init_idempotent (lf lf2 : String → Option VhLoad)
    (s s1 : VerthashState) (p : String)
    (h : Verthash.init lf s p = (true, s1)) :
    Verthash.init lf2 s1 p = (true, s1) := by
  obtain ⟨h1, h2, h3⟩ := verthash_init_true_state lf s s1 p h
  unfold Verthash.init
  rw [if_pos ⟨h1, h2⟩, if_pos h3]

/-- Witness loader for the dataset-manager claims: two known files. -/
def lfW : String → Option VhLoad := fun q =>
  if q = "a.dat" then some ⟨[1, 2], 2, 1⟩
  else if q = "b.dat" then some ⟨[3], 1, 0⟩
  else none

/-- The state after loading a.dat with the witness loader. -/
def sW1 : VerthashState :=
  ⟨⟨some [1, 2], 2, 1, some "a.dat"⟩, true⟩

/-- Witness for C5: a concrete successful init followed by a second init with
the same path. -/
theorem verthash_init_idempotent_witness :
    Verthash.init lfW sW1 "a.dat" = (true, sW1) :=
  verthash_init_idempotent lfW lfW ⟨VhInfo.empty, false⟩ sW1 "a.dat" (by decide)

/-- Claim C6: after a successful init with p1, an init with a different p2
behaves exactly as a fresh load of p2 — the old region is dropped, the
return value reports whether the load succeeded, failure resets the manager
to the empty uninitialized state, and success installs the new region with
the flag up and the path recorded. -/
theorem verthash_init_swap (lf : String → Option VhLoad) (s s1 : VerthashState)
    (p1 p2 : String) (h : Verthash.init lf s p1 = (true, s1)) (hne : p2 ≠ p1) :
    Verthash.init lf s1 p2 = Verthash.loadInto lf p2 ∧
    (Verthash.init lf s1 p2).1 = (lf p2).isSome ∧
    (lf p2 = none → (Verthash.init lf s1 p2).2 = ⟨VhInfo.empty, false⟩) ∧
    (∀ r, lf p2 = some r →
      (Verthash.init lf s1 p2).2 = ⟨⟨some r.data, r.dataSize, r.bitmask, some p2⟩, true⟩) := by
  obtain ⟨h1, h2, h3⟩ := verthash_init_true_state lf s s1 p1 h
  have heq : Verthash.init lf s1 p2 = Verthash.loadInto lf p2 := by
    unfold Verthash.init
    rw [if_pos ⟨h1, h2⟩, if_neg]
    rw [h3]
    intro hcon
    injection hcon with hcon2
    exact hne hcon2.symm
  refine ⟨heq, ?_, ?_, ?_⟩
  · rw [heq]; unfold Verthash.loadInto; cases lf p2 <;> simp
  · intro hn; rw [heq]; unfold Verthash.loadInto; rw [hn]
  · intro r hr; rw [heq]; unfold Verthash.loadInto; rw [hr]

/-- Witness for C6: a concrete successful init of a.dat followed by an init
of b.dat with the witness loader. -/
theorem verthash_init_swap_witness :
    Verthash.init lfW sW1 "b.dat" = Verthash.loadInto lfW "b.dat" ∧
    (Verthash.init lfW sW1 "b.dat").1 = (lfW "b.dat").isSome :=
  ⟨(verthash_init_swap lfW ⟨VhInfo.empty, false⟩ sW1 "a.dat" "b.dat" (by decide) (by decide)).1,
   (verthash_init_swap lfW ⟨VhInfo.empty, false⟩ sW1 "a.dat" "b.dat" (by decide) (by decide)).2.1⟩

/-! ## Claims about FailoverStrategy -/

/-- Claim C9: an onClose with failures = -1 (explicit local disconnect)
leaves the whole FailoverStrategy state unchanged and emits no listener
callback and no client call. -/
theorem failover_onClose_ignores_local_disconnect (s : FoState) (cid : Nat) :
    FailoverStrategy.onClose s cid (-1) = (s, []) := by
  unfold FailoverStrategy.onClose
  rw [if_pos rfl]

lemma promotedActive_nonneg (s : FoState) (cid : Nat) :
    0 ≤ FailoverStrategy.promotedActive s cid := by
  unfold FailoverStrategy.promotedActive
  split
  · exact Int.natCast_nonneg cid
  · rename_i hcond
    push_neg at hcond
    have hb : FailoverStrategy.isActive s = true := by
      cases hne : FailoverStrategy.isActive s
      · exact absurd hne hcond.2
      · rfl
    unfold FailoverStrategy.isActive at hb
    exact of_decide_eq_true hb

lemma mem_disconnect_filterMap (n : Nat) (a : Int) (i : Nat) :
    FoEffect.disconnect i ∈ (List.range n).filterMap
      (fun (j : Nat) => if a ≠ (j : Int) then some (FoEffect.disconnect j) else none) ↔
      (i < n ∧ a ≠ (i : Int)) := by
  constructor
  · intro h
    rcases List.mem_filterMap.mp h with ⟨j, hj, hfj⟩
    by_cases hc : a ≠ (j : Int)
    · rw [if_pos hc] at hfj
      injection hfj with h3
      injection h3 with h4
      subst h4
      exact ⟨List.mem_range.mp hj, hc⟩
    · rw [if_neg hc] at hfj; cases hfj
  · intro h
    exact List.mem_filterMap.mpr ⟨i, List.mem_range.mpr h.1, by rw [if_pos h.2]⟩

lemma not_mem_activeEv_filterMap (n : Nat) (a : Int) (c : Nat) :
    FoEffect.activeEv c ∉ (List.range n).filterMap
      (fun (j : Nat) => if a ≠ (j : Int) then some (FoEffect.disconnect j) else none) := by
  intro h
  rcases List.mem_filterMap.mp h with ⟨j, hj, hfj⟩
  by_cases hc : a ≠ (j : Int)
  · rw [if_pos hc] at hfj
    injection hfj with h3
    exact FoEffect.noConfusion h3
  · rw [if_neg hc] at hfj; cases hfj

/-- Claim C1 (amended): in zero-retry mode, an onClose with failures at least
0 on the current index — provided the close is not being ignored, i.e. the
client id is at least m_minAcceptableIndex — disconnects every pool with id
up to m_index, sets the pending index to m_index + 1 when more pools remain
and to 0 when the list is exhausted, sets m_minAcceptableIndex to that
pending index, raises the pending-connect flag, issues no connect from
inside onClose, and the deferred connect is exactly what connectNext (run
from tick) performs. -/
theorem failover_onClose_zero_retry_defer (s : FoState) (cid : Nat) (failures : Int)
    (hr : s.retries = 0) (hf : 0 ≤ failures) (hcur : s.index = cid)
    (hmin : s.minAcceptableIndex ≤ cid) (hwf : s.index < s.size) :
    (FailoverStrategy.onClose s cid failures).1.pendingConnect = true ∧
    (FailoverStrategy.onClose s cid failures).1.pendingIndex =
      (if s.size - s.index > 1 then s.index + 1 else 0) ∧
    (FailoverStrategy.onClose s cid failures).1.minAcceptableIndex =
      (FailoverStrategy.onClose s cid failures).1.pendingIndex ∧
    (∀ i, i ≤ s.index → FoEffect.disconnect i ∈ (FailoverStrategy.onClose s cid failures).2) ∧
    (∀ j, FoEffect.connect j ∉ (FailoverStrategy.onClose s cid failures).2) ∧
    FailoverStrategy.connectNext (FailoverStrategy.onClose s cid failures).1 =
      ({ (FailoverStrategy.onClose s cid failures).1 with pendingConnect := false, index := (FailoverStrategy.onClose s cid failures).1.pendingIndex },
       [FoEffect.connect (FailoverStrategy.onClose s cid failures).1.pendingIndex]) := by
  have hne : failures ≠ -1 := by omega
  have hnm : ¬ cid < s.minAcceptableIndex := by omega
  by_cases hsz : s.size - s.index > 1 <;>
    unfold FailoverStrategy.onClose FailoverStrategy.onCloseRest <;>
    rw [if_neg hne] <;>
    simp only [clearActive_retries, clearActive_index, clearActive_minAcceptableIndex,
               clearActive_size, clearActive_pendingConnect, clearActive_pendingIndex] <;>
    rw [if_pos hr, if_neg hnm, if_pos hcur]
  · rw [if_pos hsz, if_pos hsz]
    refine ⟨rfl, rfl, rfl, ?_, ?_, ?_⟩
    · intro i hi
      exact List.mem_append.mpr (Or.inr (List.mem_map.mpr ⟨i, List.mem_range.mpr (by omega), rfl⟩))
    · intro j hj
      rcases List.mem_append.mp hj with hl | hrt
      · exact FoEffect.noConfusion (mem_pauseEffects s cid _ hl)
      · rcases List.mem_map.mp hrt with ⟨k, _, hk⟩
        exact FoEffect.noConfusion hk
    · unfold FailoverStrategy.connectNext
      rw [if_neg]
      rintro (hc | hc)
      · exact absurd hc (by simp)
      · dsimp only at hc
        omega
  · rw [if_neg hsz, if_neg hsz]
    refine ⟨rfl, rfl, rfl, ?_, ?_, ?_⟩
    · intro i hi
      exact List.mem_append.mpr (Or.inr (List.mem_map.mpr ⟨i, List.mem_range.mpr (by omega), rfl⟩))
    · intro j hj
      rcases List.mem_append.mp hj with hl | hrt
      · exact FoEffect.noConfusion (mem_pauseEffects s cid _ hl)
      · rcases List.mem_map.mp hrt with ⟨k, _, hk⟩
        exact FoEffect.noConfusion hk
    · unfold FailoverStrategy.connectNext
      rw [if_neg]
      rintro (hc | hc)
      · exact absurd hc (by simp)
      · dsimp only at hc
        omega

/-- Witness for C1 at a concrete two-pool zero-retry state: the close on pool
0 raises the pending-connect flag and disconnects pool 0. -/
theorem failover_onClose_zero_retry_defer_witness :
    (FailoverStrategy.onClose (FailoverStrategy.fresh 2 0) 0 0).1.pendingConnect = true ∧
    FoEffect.disconnect 0 ∈ (FailoverStrategy.onClose (FailoverStrategy.fresh 2 0) 0 0).2 :=
  ⟨(failover_onClose_zero_retry_defer (FailoverStrategy.fresh 2 0) 0 0 rfl (by decide) rfl
      (by decide) (by decide)).1,
   (failover_onClose_zero_retry_defer (FailoverStrategy.fresh 2 0) 0 0 rfl (by decide) rfl
      (by decide) (by decide)).2.2.2.1 0 (by decide)⟩

/-- The state of a three-pool zero-retry FailoverStrategy after the cascade
events connect, onClose(pool 0, 0 failures), tick, onClose(pool 1, 0
failures): m_index = 1, m_minAcceptableIndex = 2, pending connect to 2. -/
def c1CexState : FoState :=
  (FailoverStrategy.onClose
    (FailoverStrategy.tick (FailoverStrategy.onClose (FailoverStrategy.fresh 3 0) 0 0).1 1).1
    1 0).1

/-- Counterexample for C1 as stated: at the reachable state c1CexState a
second onClose from pool 1 with failures = 0 has client id equal to the
current m_index, yet the call does not disconnect every pool with id up to
m_index — pool 0 receives no disconnect (the close is ignored because the
client id is below m_minAcceptableIndex). -/
theorem failover_onClose_zero_retry_counterexample :
    c1CexState.retries = 0 ∧ c1CexState.index = 1 ∧
    FoEffect.disconnect 0 ∉ (FailoverStrategy.onClose c1CexState 1 0).2 := by
  decide

/-- Claim C2: onLoginSuccess suppresses (with a disconnect and no other
change) a login from below m_minAcceptableIndex in zero-retry mode;
otherwise it cancels the pending connect, resets m_minAcceptableIndex,
promotes the client when it is pool 0 or no pool is active, disconnects
exactly the pools other than the resulting active one, and updates
m_index = m_active and emits onActive exactly when the active id changed. -/
theorem failover_onLoginSuccess_spec (s : FoState) (cid : Nat) :
    (s.retries = 0 ∧ cid < s.minAcceptableIndex →
      FailoverStrategy.onLoginSuccess s cid = (s, [FoEffect.disconnect cid])) ∧
    (¬(s.retries = 0 ∧ cid < s.minAcceptableIndex) →
      (FailoverStrategy.onLoginSuccess s cid).1.pendingConnect = false ∧
      (FailoverStrategy.onLoginSuccess s cid).1.minAcceptableIndex = 0 ∧
      (∀ i : Nat, FoEffect.disconnect i ∈ (FailoverStrategy.onLoginSuccess s cid).2 ↔
        (i < s.size ∧ FailoverStrategy.promotedActive s cid ≠ (i : Int))) ∧
      (FailoverStrategy.promotedActive s cid ≠ s.active →
        (FailoverStrategy.onLoginSuccess s cid).1.active = FailoverStrategy.promotedActive s cid ∧
        (FailoverStrategy.onLoginSuccess s cid).1.index =
          (FailoverStrategy.promotedActive s cid).toNat ∧
        FoEffect.activeEv cid ∈ (FailoverStrategy.onLoginSuccess s cid).2) ∧
      (FailoverStrategy.promotedActive s cid = s.active →
        (FailoverStrategy.onLoginSuccess s cid).1.active = s.active ∧
        (FailoverStrategy.onLoginSuccess s cid).1.index = s.index ∧
        ∀ c, FoEffect.activeEv c ∉ (FailoverStrategy.onLoginSuccess s cid).2)) := by
  constructor
  · intro h
    unfold FailoverStrategy.onLoginSuccess
    rw [if_pos h]
  · intro h
    have hpa : FailoverStrategy.promotedActive
        { s with pendingConnect := false, minAcceptableIndex := 0 } cid =
        FailoverStrategy.promotedActive s cid := rfl
    unfold FailoverStrategy.onLoginSuccess
    rw [if_neg h]
    simp only [hpa]
    by_cases hch : FailoverStrategy.promotedActive s cid = s.active
    · rw [if_neg (by simp [hch])]
      refine ⟨rfl, rfl, ?_, ?_, ?_⟩
      · intro i
        exact mem_disconnect_filterMap s.size (FailoverStrategy.promotedActive s cid) i
      · intro hne; exact absurd hch hne
      · intro _
        exact ⟨rfl, rfl, fun c =>
          not_mem_activeEv_filterMap s.size (FailoverStrategy.promotedActive s cid) c⟩
    · rw [if_pos ⟨promotedActive_nonneg s cid, by simpa using hch⟩]
      refine ⟨rfl, rfl, ?_, ?_, ?_⟩
      · intro i
        simp only [List.mem_append, mem_disconnect_filterMap, List.mem_singleton]
        constructor
        · rintro (hm | hm)
          · exact hm
          · exact FoEffect.noConfusion hm
        · intro hm; exact Or.inl hm
      · intro _
        exact ⟨rfl, rfl, List.mem_append.mpr (Or.inr (List.mem_singleton.mpr rfl))⟩
      · intro hc; exact absurd hc hch

/-- Witness for C2 at a concrete fresh two-pool zero-retry state with client
1 logging in. -/
theorem failover_onLoginSuccess_spec_witness :
    (FailoverStrategy.onLoginSuccess (FailoverStrategy.fresh 2 0) 1).1.pendingConnect = false ∧
    (FailoverStrategy.onLoginSuccess (FailoverStrategy.fresh 2 0) 1).1.minAcceptableIndex = 0 :=
  ⟨((failover_onLoginSuccess_spec (FailoverStrategy.fresh 2 0) 1).2 (by decide)).1,
   ((failover_onLoginSuccess_spec (FailoverStrategy.fresh 2 0) 1).2 (by decide)).2.1⟩

/-- Claim C3 (amended): in zero-retry mode an onClose step never decreases
m_minAcceptableIndex except when the pool list is exhausted, where both the
pending index and m_minAcceptableIndex reset to 0 for the wrap to pool 0;
and any onLoginSuccess that is not suppressed resets m_minAcceptableIndex
to 0. -/
theorem failover_min_monotone (s : FoState) (cid : Nat) (failures : Int)
    (hr : s.retries = 0) (hf : 0 ≤ failures) :
    (s.minAcceptableIndex ≤ (FailoverStrategy.onClose s cid failures).1.minAcceptableIndex ∨
      (cid = s.index ∧ ¬ s.size - s.index > 1 ∧
        (FailoverStrategy.onClose s cid failures).1.minAcceptableIndex = 0 ∧
        (FailoverStrategy.onClose s cid failures).1.pendingIndex = 0)) ∧
    (¬ cid < s.minAcceptableIndex →
      (FailoverStrategy.onLoginSuccess s cid).1.minAcceptableIndex = 0) := by
  constructor
  · have hne : failures ≠ -1 := by omega
    unfold FailoverStrategy.onClose FailoverStrategy.onCloseRest
    rw [if_neg hne]
    simp only [clearActive_retries, clearActive_index, clearActive_minAcceptableIndex,
               clearActive_size, clearActive_pendingConnect, clearActive_pendingIndex]
    rw [if_pos hr]
    by_cases h1 : cid < s.minAcceptableIndex
    · rw [if_pos h1]; left; simp
    · rw [if_neg h1]
      by_cases h2 : s.index = cid
      · rw [if_pos h2]
        by_cases h3 : s.size - s.index > 1
        · rw [if_pos h3]; left; simp; omega
        · rw [if_neg h3]; right; exact ⟨h2.symm, h3, rfl, rfl⟩
      · rw [if_neg h2]; left; simp
  · intro h
    unfold FailoverStrategy.onLoginSuccess
    rw [if_neg (fun hc => h hc.2)]
    dsimp only
    split <;> rfl

/-- Witness for C3: from a fresh two-pool zero-retry state, an unsuppressed
login resets m_minAcceptableIndex to 0. -/
theorem failover_min_monotone_witness :
    (FailoverStrategy.onLoginSuccess (FailoverStrategy.fresh 2 0) 0).1.minAcceptableIndex = 0 :=
  (failover_min_monotone (FailoverStrategy.fresh 2 0) 0 0 rfl (by decide)).2 (by decide)

/-- The state of a two-pool zero-retry FailoverStrategy after
onClose(pool 0, 0 failures): m_minAcceptableIndex has risen to 1. -/
def c3CexMid : FoState :=
  (FailoverStrategy.onClose (FailoverStrategy.fresh 2 0) 0 0).1

/-- The state two cascade events later (tick, then onClose(pool 1, 0
failures)): the list is exhausted and m_minAcceptableIndex is back to 0. -/
def c3CexEnd : FoState :=
  (FailoverStrategy.onClose (FailoverStrategy.tick c3CexMid 1).1 1 0).1

/-- Counterexample for C3 as stated: within a single failover cascade (two
onClose events with failures = 0 separated by a tick, no login in between)
m_minAcceptableIndex goes from 1 down to 0, so it is not monotonically
non-decreasing across the cascade. -/
theorem failover_min_monotone_counterexample :
    c3CexMid.minAcceptableIndex = 1 ∧ c3CexEnd.minAcceptableIndex = 0 := by
  decide

/-- Claim C7 (amended): with a positive retry budget, an onClose with
failures at least 0 behaves as follows: when m_index = 0 and failures is
below the budget, the strategy changes nothing beyond the shared
active-clear step (m_active cleared and onPause emitted only when the
closing client was the active one) and the client retries in place;
otherwise, when the close is on the current index and a next pool exists,
m_index is incremented and the next pool is connected synchronously; in
particular on pool 0 with failures at least the budget it advances to pool
1 and connects it. -/
theorem failover_onClose_nonzero_retry (s : FoState) (cid : Nat) (failures : Int)
    (hr : 0 < s.retries) (hf : 0 ≤ failures) :
    (s.index = 0 ∧ failures < s.retries →
      FailoverStrategy.onClose s cid failures =
        (FailoverStrategy.clearActive s cid, FailoverStrategy.pauseEffects s cid)) ∧
    (¬(s.index = 0 ∧ failures < s.retries) → s.index = cid → s.size - s.index > 1 →
      FailoverStrategy.onClose s cid failures =
        ({ FailoverStrategy.clearActive s cid with index := s.index + 1 },
         FailoverStrategy.pauseEffects s cid ++ [FoEffect.connect (s.index + 1)])) ∧
    (s.index = 0 → cid = 0 → s.retries ≤ failures → 1 < s.size →
      (FailoverStrategy.onClose s cid failures).1.index = 1 ∧
      FoEffect.connect 1 ∈ (FailoverStrategy.onClose s cid failures).2) := by
  have hne : failures ≠ -1 := by omega
  have hr0 : ¬ s.retries = 0 := by omega
  refine ⟨?_, ?_, ?_⟩
  · intro h
    unfold FailoverStrategy.onClose FailoverStrategy.onCloseRest
    rw [if_neg hne]
    simp only [clearActive_retries, clearActive_index, clearActive_size]
    rw [if_neg hr0, if_pos h]
  · intro h1 h2 h3
    unfold FailoverStrategy.onClose FailoverStrategy.onCloseRest
    rw [if_neg hne]
    simp only [clearActive_retries, clearActive_index, clearActive_size]
    rw [if_neg hr0, if_neg h1, if_pos ⟨h2, h3⟩]
  · intro h1 h2 h3 h4
    have h5 : ¬(s.index = 0 ∧ failures < s.retries) := fun hc => by omega
    have h6 : s.index = cid := by omega
    have h7 : s.size - s.index > 1 := by omega
    unfold FailoverStrategy.onClose FailoverStrategy.onCloseRest
    rw [if_neg hne]
    simp only [clearActive_retries, clearActive_index, clearActive_size]
    rw [if_neg hr0, if_neg h5, if_pos ⟨h6, h7⟩]
    constructor
    · simp [h1]
    · rw [h1]
      exact List.mem_append.mpr (Or.inr (List.mem_singleton.mpr rfl))

/-- Witness for C7 at a concrete two-pool state with a retry budget of 2:
pool 0 closing with 5 failures advances to pool 1 and connects it. -/
theorem failover_onClose_nonzero_retry_witness :
    (FailoverStrategy.onClose (FailoverStrategy.fresh 2 2) 0 5).1.index = 1 ∧
    FoEffect.connect 1 ∈ (FailoverStrategy.onClose (FailoverStrategy.fresh 2 2) 0 5).2 :=
  (failover_onClose_nonzero_retry (FailoverStrategy.fresh 2 2) 0 5 (by decide) (by decide)).2.2
    rfl rfl (by decide) (by decide)

/-- The state of a two-pool FailoverStrategy with a retry budget of 2 after
pool 0 logged in successfully: m_index = 0, m_active = 0. -/
def c7CexState : FoState :=
  (FailoverStrategy.onLoginSuccess (FailoverStrategy.fresh 2 2) 0).1

/-- Counterexample for C7 as stated: at the reachable state c7CexState, an
onClose on pool 0 with 0 failures (below the budget of 2, m_index = 0) does
change state — m_active is cleared to -1 and onPause is emitted — so "the
strategy changes no state" is false when the closing client was active. -/
theorem failover_retry_in_place_counterexample :
    c7CexState.index = 0 ∧ (0 : Int) < c7CexState.retries ∧ c7CexState.active = 0 ∧
    (FailoverStrategy.onClose c7CexState 0 0).1 ≠ c7CexState ∧
    (FailoverStrategy.onClose c7CexState 0 0).1.active = -1 ∧
    (FailoverStrategy.onClose c7CexState 0 0).2 = [FoEffect.pause] := by
  decide

end Spec2Proof
